import Mathlib

/-! MetroSimulation: a shallow embedding of `simulation.c`.

The linked lists `head_AC`, `head_BC`, `head_ED`, `head_FD` are Lean lists of
`Train` records (a `TrainNode` chain is the list of its `train` fields, `NULL`
is `[]`).  C `int`s are unbounded integers (no overflow is modelled).  The
0/1 flags `system_overloaded`, `tunnel_occupied` and `shutdown_flag` are
booleans.  Wall-clock fields (`arrival_time`, `departure_time`, the overload
timestamps) and console output are left out.  A `double` sample
`(double)rand() / RAND_MAX` is the exact rational `rand() / RAND_MAX`, and the
constants it is compared with (0.7, 1.0/3.0, 2.0/3.0, 0.5, 0.1, `p`) are exact
rationals too.  Allocation results and `rand()` values are inputs of the
functions that use them.
-/

namespace MetroSimulation

/-! ## Data model -/

/-- The `Train` record of the source, without its two timestamp strings. -/
structure Train where
  length : Int
  speed : Int
  id : Int
  starting_point : String
  destination_point : String
  deriving DecidableEq, Repr

/-- Global `tunnel_length`, initialised to 100 and never written. -/
def tunnel_length : Int := 100

/-- Global `train_speed`, initialised to 100 and never written. -/
def train_speed : Int := 100

/-- The shared globals of the program. -/
structure State where
  head_AC : List Train
  head_BC : List Train
  head_ED : List Train
  head_FD : List Train
  current_trains_count : Nat
  train_counter : Int
  system_overloaded : Bool
  tunnel_occupied : Bool
  shutdown_flag : Bool
  deriving DecidableEq, Repr

/-- The initial values of the globals. -/
def State.init : State :=
  { head_AC := [], head_BC := [], head_ED := [], head_FD := [],
    current_trains_count := 0, train_counter := 0,
    system_overloaded := false, tunnel_occupied := false, shutdown_flag := false }

/-! ## Queue store -/

/-- Function `get_queue_size`: walk the chain, counting nodes. -/
def get_queue_size : List Train → Nat
  | [] => 0
  | _ :: next => get_queue_size next + 1

/-- Function `enqueue`: when `malloc` fails (`alloc = false`) the queue is left
as it is; otherwise the new node becomes the head of an empty queue, or is
linked after the last node found by walking `next`. -/
def enqueue (alloc : Bool) (head : List Train) (train : Train) : List Train :=
  if !alloc then head
  else
    match head with
    | [] => [train]
    | node :: next => node :: enqueue alloc next train

/-- Function `dequeue`: `NULL` on an empty queue, otherwise the head node is
unlinked and returned.  The result pairs the returned node with the new head. -/
def dequeue (head : List Train) : Option Train × List Train :=
  match head with
  | [] => (none, [])
  | node :: next => (some node, next)

/-- Sum of the four queue sizes, as computed at the top of every generator
iteration and in `create_trains_waiting_string`. -/
def total_size (s : State) : Nat :=
  get_queue_size s.head_AC + get_queue_size s.head_BC +
    get_queue_size s.head_ED + get_queue_size s.head_FD

/-! ## Scheduler: selection -/

/-- The first half of the selection code of `tunnel_controller`: starting from
`max_trains = 0` and `queue_id = '0'`, four strict comparisons against the
running `max_trains`, in the order AC, BC, ED, FD.  The result is the pair
`(max_trains, queue_id)` after the fourth `if`. -/
def scan_queues (sizeA sizeB sizeE sizeF : Nat) : Nat × Char :=
  let max_trains : Nat := 0
  let queue_id : Char := '0'
  let (max_trains, queue_id) :=
    if sizeA > max_trains then (sizeA, 'A') else (max_trains, queue_id)
  let (max_trains, queue_id) :=
    if sizeB > max_trains then (sizeB, 'B') else (max_trains, queue_id)
  let (max_trains, queue_id) :=
    if sizeE > max_trains then (sizeE, 'E') else (max_trains, queue_id)
  let (max_trains, queue_id) :=
    if sizeF > max_trains then (sizeF, 'F') else (max_trains, queue_id)
  (max_trains, queue_id)

/-- The whole selection code of `tunnel_controller` on the four sizes: the scan
above, then the tie-break `if / else if` chain.  The result is the final
`queue_id`. -/
def select_queue (sizeA sizeB sizeE sizeF : Nat) : Char :=
  let (max_trains, queue_id) := scan_queues sizeA sizeB sizeE sizeF
  if max_trains = sizeA then 'A'
  else if max_trains = sizeB ∧ queue_id ≠ 'A' then 'B'
  else if max_trains = sizeE ∧ queue_id ≠ 'A' ∧ queue_id ≠ 'B' then 'E'
  else if max_trains = sizeF ∧ queue_id ≠ 'A' ∧ queue_id ≠ 'B' ∧ queue_id ≠ 'E' then 'F'
  else queue_id

/-- The `switch (queue_id)` of `tunnel_controller`: dequeue from the queue the
label names; any other label leaves `train_node_to_process` at `NULL`. -/
def dequeue_selected (queue_id : Char) (s : State) : Option Train × State :=
  if queue_id = 'A' then ((dequeue s.head_AC).1, { s with head_AC := (dequeue s.head_AC).2 })
  else if queue_id = 'B' then ((dequeue s.head_BC).1, { s with head_BC := (dequeue s.head_BC).2 })
  else if queue_id = 'E' then ((dequeue s.head_ED).1, { s with head_ED := (dequeue s.head_ED).2 })
  else if queue_id = 'F' then ((dequeue s.head_FD).1, { s with head_FD := (dequeue s.head_FD).2 })
  else (none, s)

/-- Selection followed by the dequeue, on the current globals: the chosen
label, the node taken, and the globals afterwards. -/
def select_and_dequeue (s : State) : Char × Option Train × State :=
  let queue_id := select_queue (get_queue_size s.head_AC) (get_queue_size s.head_BC)
    (get_queue_size s.head_ED) (get_queue_size s.head_FD)
  (queue_id, dequeue_selected queue_id s)

/-- Specification side of the selection policy: the first of A, B, E, F whose
size equals the maximum of the four sizes. -/
def first_at_max (sizeA sizeB sizeE sizeF : Nat) : Char :=
  let m := max (max sizeA sizeB) (max sizeE sizeF)
  if sizeA = m then 'A' else if sizeB = m then 'B' else if sizeE = m then 'E' else 'F'

/-- The queue a direction label names. -/
def queue_of (queue_id : Char) (s : State) : List Train :=
  if queue_id = 'A' then s.head_AC
  else if queue_id = 'B' then s.head_BC
  else if queue_id = 'E' then s.head_ED
  else if queue_id = 'F' then s.head_FD
  else []

/-! ## Queue store: sequences of operations -/

/-- One operation on a single directional queue. -/
inductive QueueOp where
  | enq (train : Train)
  | deq
  deriving DecidableEq, Repr

/-- Apply a sequence of operations to a queue (allocation succeeding).  The
result is the final queue and the nodes returned by the `dequeue` calls, in call
order (a `dequeue` on an empty queue returns `NULL` and contributes nothing). -/
def run_queue_ops : List QueueOp → List Train → List Train × List Train
  | [], head => (head, [])
  | QueueOp.enq train :: ops, head => run_queue_ops ops (enqueue true head train)
  | QueueOp.deq :: ops, head =>
    let r := run_queue_ops ops (dequeue head).2
    (r.1, (dequeue head).1.toList ++ r.2)

/-- The trains handed to `enqueue` by a sequence of operations, in call order. -/
def enqueued_trains : List QueueOp → List Train
  | [] => []
  | QueueOp.enq train :: ops => train :: enqueued_trains ops
  | QueueOp.deq :: ops => enqueued_trains ops

/-! ## Train arrival generator -/

/-- The expression `(double)rand() / RAND_MAX` for a value `r` returned by
`rand()`, as an exact rational. -/
def uniform (RAND_MAX r : Nat) : ℚ := (r : ℚ) / (RAND_MAX : ℚ)

/-- What one iteration of the generator loop reads from outside the globals:
whether its two allocations succeed and the values its `rand()` calls return
(`direction_rand` is only drawn on the A/E/F side). -/
structure TickInput where
  train_alloc : Bool
  node_alloc : Bool
  length_rand : Nat
  arrival_rand : Nat
  direction_rand : Nat
  destination_rand : Nat
  deriving DecidableEq, Repr

/-- The globals after one iteration of the generator loop, and the train the
iteration created, if it created one. -/
structure TickResult where
  state : State
  created : Option Train

/-- The last branch of the generator loop body (`else if (!system_overloaded)`):
allocate a train, give it the next id, draw its length and its side, and enqueue
it.  When the allocation fails the iteration ends with nothing changed. -/
def admit_train (RAND_MAX : Nat) (p : ℚ) (inp : TickInput) (s : State) : TickResult :=
  if inp.train_alloc = false then ⟨s, none⟩
  else
    let id := s.train_counter
    let s := { s with train_counter := s.train_counter + 1 }
    let length_prob := uniform RAND_MAX inp.length_rand
    let length : Int := if length_prob < 7 / 10 then 100 else 200
    let arrival_prob := uniform RAND_MAX inp.arrival_rand
    if arrival_prob < p then
      let direction_prob := uniform RAND_MAX inp.direction_rand
      let destination_prob := uniform RAND_MAX inp.destination_rand
      if direction_prob < 1 / 3 then
        let train : Train :=
          { length := length, speed := 100, id := id, starting_point := "A",
            destination_point := if destination_prob < 1 / 2 then "E" else "F" }
        ⟨{ s with head_AC := enqueue inp.node_alloc s.head_AC train }, some train⟩
      else if direction_prob < 2 / 3 then
        let train : Train :=
          { length := length, speed := 100, id := id, starting_point := "F",
            destination_point := if destination_prob < 1 / 2 then "A" else "B" }
        ⟨{ s with head_FD := enqueue inp.node_alloc s.head_FD train }, some train⟩
      else
        let train : Train :=
          { length := length, speed := 100, id := id, starting_point := "E",
            destination_point := if destination_prob < 1 / 2 then "A" else "B" }
        ⟨{ s with head_ED := enqueue inp.node_alloc s.head_ED train }, some train⟩
    else
      let destination_prob := uniform RAND_MAX inp.destination_rand
      let train : Train :=
        { length := length, speed := 100, id := id, starting_point := "B",
          destination_point := if destination_prob < 1 / 2 then "E" else "F" }
      ⟨{ s with head_BC := enqueue inp.node_alloc s.head_BC train }, some train⟩

/-- One iteration of the `while (!shutdown_flag)` loop of `train_generator`,
with arrival probability `p`. -/
def train_generator_tick (RAND_MAX : Nat) (p : ℚ) (inp : TickInput) (s : State) : TickResult :=
  let s := { s with current_trains_count := total_size s }
  if s.system_overloaded = true ∧ s.current_trains_count > 0 then
    ⟨s, none⟩
  else if s.current_trains_count > 10 ∧ s.system_overloaded = false then
    ⟨{ s with system_overloaded := true }, none⟩
  else if s.system_overloaded = true ∧ s.current_trains_count = 0 then
    ⟨{ s with system_overloaded := false }, none⟩
  else if s.system_overloaded = false then
    admit_train RAND_MAX p inp s
  else ⟨s, none⟩

/-! ## Tunnel passage -/

/-- Control-centre events written while a train is processed. -/
inductive ControlEvent where
  | tunnel_passing (id : Int)
  | breakdown (id : Int)
  deriving DecidableEq, Repr

/-- What `process_train` does: the argument it passes to `sleep` and the
control-centre events it logs. -/
structure Passage where
  sleep : Int
  events : List ControlEvent
  deriving DecidableEq, Repr

/-- Function `process_train`.  `breakdown_rand` is the value its `rand()` call
returns; integer division is C division (truncation toward zero). -/
def process_train (RAND_MAX breakdown_rand : Nat) (queue_id : Char) (train_length : Int)
    (train : Train) : Passage :=
  let _ := queue_id
  let passage_time := Int.tdiv (train_length + tunnel_length) train_speed
  let breakdown_probability := uniform RAND_MAX breakdown_rand
  if breakdown_probability < 1 / 10 then
    { sleep := passage_time + 4,
      events := [ControlEvent.tunnel_passing train.id, ControlEvent.breakdown train.id] }
  else
    { sleep := passage_time, events := [ControlEvent.tunnel_passing train.id] }

/-! ## Tunnel scheduler -/

/-- The condition of the inner `while` of `tunnel_controller` (the scheduler
calls `pthread_cond_wait` while it is true).  In C, `&&` binds tighter than
`||`. -/
def wait_condition (s : State) : Bool :=
  (!s.shutdown_flag && s.tunnel_occupied) ||
    (get_queue_size s.head_AC == 0 && get_queue_size s.head_BC == 0 &&
      get_queue_size s.head_ED == 0 && get_queue_size s.head_FD == 0)

/-- Control points of `tunnel_controller`. -/
inductive PC where
  | top
  | waiting
  | check_shutdown
  | select
  | mark_occupied
  | enter
  | in_tunnel
  | mark_free
  | exited
  deriving DecidableEq, Repr

/-- The whole program state: the globals, the scheduler thread's control point
and locals, and two history variables: `in_tunnel`, the trains for which
`process_train` has been entered and has not returned, and `generated`, the
trains created by the generator so far, in creation order. -/
structure Sys where
  g : State
  pc : PC
  queue_id : Char
  train_node_to_process : Option Train
  in_tunnel : List Train
  generated : List Train

/-- Program start. -/
def Sys.init : Sys :=
  { g := State.init, pc := PC.top, queue_id := '0', train_node_to_process := none,
    in_tunnel := [], generated := [] }

/-- One step of the scheduler thread. -/
def tunnel_controller_step (y : Sys) : Sys :=
  match y.pc with
  | PC.top =>
    if y.g.shutdown_flag then { y with pc := PC.exited } else { y with pc := PC.waiting }
  | PC.waiting =>
    if wait_condition y.g then y else { y with pc := PC.check_shutdown }
  | PC.check_shutdown =>
    if y.g.shutdown_flag then { y with pc := PC.exited } else { y with pc := PC.select }
  | PC.select =>
    let r := select_and_dequeue y.g
    { y with g := r.2.2, queue_id := r.1, train_node_to_process := r.2.1,
             pc := PC.mark_occupied }
  | PC.mark_occupied =>
    { y with g := { y.g with tunnel_occupied := true }, pc := PC.enter }
  | PC.enter =>
    match y.train_node_to_process with
    | some train => { y with in_tunnel := train :: y.in_tunnel, pc := PC.in_tunnel }
    | none => { y with pc := PC.mark_free }
  | PC.in_tunnel =>
    { y with in_tunnel := y.in_tunnel.tail, train_node_to_process := none,
             pc := PC.mark_free }
  | PC.mark_free =>
    { y with g := { y.g with tunnel_occupied := false }, pc := PC.top }
  | PC.exited => y

/-- What can happen next: an iteration of the generator loop (skipped once
`shutdown_flag` is set, the loop having ended), a step of the scheduler, or the
shutdown flag being raised (by the signal handler or by the timer in `main`). -/
inductive Event where
  | tick (inp : TickInput)
  | controller
  | shutdown
  deriving DecidableEq, Repr

/-- One event. -/
def step (RAND_MAX : Nat) (p : ℚ) (y : Sys) : Event → Sys
  | Event.tick inp =>
    if y.g.shutdown_flag then y
    else
      let r := train_generator_tick RAND_MAX p inp y.g
      { y with g := r.state, generated := y.generated ++ r.created.toList }
  | Event.controller => tunnel_controller_step y
  | Event.shutdown => { y with g := { y.g with shutdown_flag := true } }

/-- An execution: the events applied in order. -/
def run (RAND_MAX : Nat) (p : ℚ) (y : Sys) (events : List Event) : Sys :=
  events.foldl (step RAND_MAX p) y

/-- The relation between the scheduler's control point, `tunnel_occupied` and
the trains inside `process_train` that every execution maintains. -/
def tunnel_invariant (y : Sys) : Prop :=
  match y.pc with
  | PC.enter => y.g.tunnel_occupied = true ∧ y.in_tunnel = []
  | PC.in_tunnel => y.g.tunnel_occupied = true ∧ ∃ train, y.in_tunnel = [train]
  | PC.mark_free => y.g.tunnel_occupied = true ∧ y.in_tunnel = []
  | _ => y.g.tunnel_occupied = false ∧ y.in_tunnel = []

/-- What the overload claims look at in a state: the aggregate queued count,
`train_counter` and `system_overloaded`. -/
def observe (y : Sys) : Nat × Int × Bool :=
  (total_size y.g, y.g.train_counter, y.g.system_overloaded)

/-- The observations after each event of an execution. -/
def trajectory (RAND_MAX : Nat) (p : ℚ) : Sys → List Event → List (Nat × Int × Bool)
  | _, [] => []
  | y, e :: events =>
    observe (step RAND_MAX p y e) :: trajectory RAND_MAX p (step RAND_MAX p y e) events

/-- The aggregate queued count is non-zero in every state of the execution,
first and last included. -/
def never_drained (RAND_MAX : Nat) (p : ℚ) : Sys → List Event → Bool
  | y, [] => decide (total_size y.g ≠ 0)
  | y, e :: events =>
    decide (total_size y.g ≠ 0) && never_drained RAND_MAX p (step RAND_MAX p y e) events

/-- An iteration of the generator in which both allocations succeed and every
`rand()` call returns 0. -/
def tick_zero : Event := Event.tick ⟨true, true, 0, 0, 0, 0⟩

/-- Eleven generator iterations from program start: eleven trains queued. -/
def race_fill : List Event := List.replicate 11 tick_zero

/-- Four scheduler steps: loop test, wait test, shutdown test, select and
dequeue. -/
def race_dequeue : List Event :=
  [Event.controller, Event.controller, Event.controller, Event.controller]

/-- A state just after a generator iteration has read an aggregate count of 11
and raised `system_overloaded`: program start, eleven iterations, and a twelfth
that observes the overload. -/
def overloaded_example : Sys :=
  run 2147483647 0 Sys.init (race_fill ++ [tick_zero])

/-! ## Waiting list of the control-centre log -/

/-- Function `extract_train_IDs`: write the ids of a chain into `trainIDs` from
position `*index` on.  The array is modelled by its filled part, `*index` being
its length. -/
def extract_train_IDs : List Train → List Int → List Int
  | [], trainIDs => trainIDs
  | node :: next, trainIDs => extract_train_IDs next (trainIDs ++ [node.id])

/-- The inner `for (j ...)` loop of the sort in `create_trains_waiting_string`:
`bound` iterations, each comparing the element at the current position with its
right neighbour and swapping them when the left one is larger. -/
def bubble_pass : Nat → List Int → List Int
  | 0, trainIDs => trainIDs
  | bound + 1, x :: y :: rest =>
    if x > y then y :: bubble_pass bound (x :: rest) else x :: bubble_pass bound (y :: rest)
  | _ + 1, trainIDs => trainIDs

/-- The outer `for (i ...)` loop of the sort: `i` runs over `0 .. totalTrains - 2`
and the inner loop makes `totalTrains - i - 1` comparisons. -/
def bubble_sort (totalTrains : Nat) (trainIDs : List Int) : List Int :=
  (List.range (totalTrains - 1)).foldl
    (fun trainIDs i => bubble_pass (totalTrains - i - 1) trainIDs) trainIDs

/-- The text `snprintf` produces for `%d`. -/
def format_d (n : Int) : String := toString n

/-- Function `concatenateWithCommas`: `NULL` (`none`) when `size <= 0` or when
the result buffer cannot be allocated (`alloc = false`); otherwise every element
but the last is printed with `"%d,"` and the last with `"%d"`. -/
def concatenateWithCommas (alloc : Bool) (array : List Int) (size : Nat) : Option String :=
  if size = 0 then none
  else if alloc = false then none
  else
    let result := (List.range (size - 1)).foldl
      (fun result i => result ++ format_d (array.getD i 0) ++ ",") ""
    some (result ++ format_d (array.getD (size - 1) 0))

/-- The ids gathered by the four `extract_train_IDs` calls, in the order AC,
BC, ED, FD. -/
def collect_train_IDs (s : State) : List Int :=
  extract_train_IDs s.head_FD (extract_train_IDs s.head_ED
    (extract_train_IDs s.head_BC (extract_train_IDs s.head_AC [])))

/-- The array `trainIDs` of `create_trains_waiting_string` after the sort,
just before it is passed to `concatenateWithCommas`. -/
def sorted_train_IDs (s : State) : List Int :=
  bubble_sort (total_size s) (collect_train_IDs s)

/-- Function `create_trains_waiting_string`. -/
def create_trains_waiting_string (alloc : Bool) (s : State) : Option String :=
  concatenateWithCommas alloc (sorted_train_IDs s) (total_size s)

/-! ## Example states and invariants used below -/

/-- A state with queue sizes (A=3, B=3, E=1, F=0). -/
def example_state_3310 : State :=
  { State.init with
    head_AC := [⟨100, 100, 0, "A", "E"⟩, ⟨100, 100, 3, "A", "F"⟩, ⟨200, 100, 5, "A", "E"⟩],
    head_BC := [⟨100, 100, 1, "B", "E"⟩, ⟨200, 100, 2, "B", "F"⟩, ⟨100, 100, 6, "B", "E"⟩],
    head_ED := [⟨100, 100, 4, "E", "A"⟩],
    train_counter := 7 }

/-- The ids handed out so far are strictly increasing and all below
`train_counter`. -/
def ids_invariant (y : Sys) : Prop :=
  List.Pairwise (fun a b => a < b) (y.generated.map Train.id) ∧
    ∀ t ∈ y.generated, t.id < y.g.train_counter

/-- State of the sort after `i` rounds on an array of `n` elements: the last `i`
positions hold, in ascending order, elements that are at least as large as
everything before them. -/
def sort_invariant (n i : Nat) (a : List Int) : Prop :=
  ∃ front back, a = front ++ back ∧ front.length + i = n ∧
    List.Sorted (fun x y => x ≤ y) back ∧ ∀ x ∈ front, ∀ y ∈ back, x ≤ y

/-- Left-to-right comma join that continues an accumulator: the text built so
far, then the first string, then each later string preceded by one comma. -/
def join_from (acc : String) : List String → String
  | [] => acc
  | first :: rest => String.intercalate.go (acc ++ first) "," rest

/-- All trains waiting in the four queues. -/
def all_queued (s : State) : List Train :=
  s.head_AC ++ s.head_BC ++ s.head_ED ++ s.head_FD

/-- Every train waiting in a queue or held by the scheduler has length 100 or
200. -/
def lengths_invariant (y : Sys) : Prop :=
  (∀ t ∈ all_queued y.g, t.length = 100 ∨ t.length = 200) ∧
    ∀ t, y.train_node_to_process = some t → t.length = 100 ∨ t.length = 200

/-- One generator iteration and then six scheduler steps: the first train is
inside `process_train`. -/
def first_passage : List Event :=
  [tick_zero, Event.controller, Event.controller, Event.controller, Event.controller,
    Event.controller, Event.controller]

/-- The aggregate queued count stays within the overload threshold plus the one
train a generator iteration may add. -/
def backlog_invariant (y : Sys) : Prop :=
  total_size y.g ≤ 11

/-! ## The generator iteration in two steps

In the source the aggregate count is read into the global `current_trains_count`
before the queue lock is taken, so scheduler steps can fall between that read and
the enqueue.  The definitions below split the iteration at that point. -/

/-- The `if / else if` chain of the generator loop body, deciding on the value
already stored in `current_trains_count`. -/
def train_generator_branches (RAND_MAX : Nat) (p : ℚ) (inp : TickInput) (s : State) :
    TickResult :=
  if s.system_overloaded = true ∧ s.current_trains_count > 0 then
    ⟨s, none⟩
  else if s.current_trains_count > 10 ∧ s.system_overloaded = false then
    ⟨{ s with system_overloaded := true }, none⟩
  else if s.system_overloaded = true ∧ s.current_trains_count = 0 then
    ⟨{ s with system_overloaded := false }, none⟩
  else if s.system_overloaded = false then
    admit_train RAND_MAX p inp s
  else ⟨s, none⟩

/-- The program state together with the generator thread's control point:
`generator_has_read` holds between the assignment to `current_trains_count` and
the end of that loop iteration. -/
structure Threads where
  sys : Sys
  generator_has_read : Bool

/-- Program start, the generator at the top of its loop. -/
def Threads.init : Threads := { sys := Sys.init, generator_has_read := false }

/-- Events of the two-step view: the generator reads the aggregate count (only
at the top of its loop and with `shutdown_flag` clear), the generator runs the
rest of its loop body, the scheduler takes a step, shutdown is requested. -/
inductive FineEvent where
  | read
  | act (inp : TickInput)
  | controller
  | shutdown
  deriving DecidableEq, Repr

/-- One event of the two-step view. -/
def fine_step (RAND_MAX : Nat) (p : ℚ) (z : Threads) : FineEvent → Threads
  | FineEvent.read =>
    if z.generator_has_read || z.sys.g.shutdown_flag then z
    else
      { sys := { z.sys with
                 g := { z.sys.g with current_trains_count := total_size z.sys.g } },
        generator_has_read := true }
  | FineEvent.act inp =>
    if !z.generator_has_read then z
    else
      let r := train_generator_branches RAND_MAX p inp z.sys.g
      { sys := { z.sys with g := r.state,
                            generated := z.sys.generated ++ r.created.toList },
        generator_has_read := false }
  | FineEvent.controller => { z with sys := tunnel_controller_step z.sys }
  | FineEvent.shutdown =>
    { z with sys := { z.sys with g := { z.sys.g with shutdown_flag := true } } }

/-- An execution of the two-step view. -/
def fine_run (RAND_MAX : Nat) (p : ℚ) (z : Threads) (events : List FineEvent) : Threads :=
  events.foldl (fine_step RAND_MAX p) z

/-- The backlog bound of the two-step view: at most 11 trains queued, and
between the read and the end of the iteration the queues hold no more than the
count that was read. -/
def fine_backlog_invariant (z : Threads) : Prop :=
  total_size z.sys.g ≤ 11 ∧
    (z.generator_has_read = true → total_size z.sys.g ≤ z.sys.g.current_trains_count)

/-- A stale read: ten iterations, the eleventh reads a count of 10, the
scheduler dequeues one train, and only then the eleventh iteration enqueues. -/
def stale_read_events : List FineEvent :=
  (List.replicate 10 [FineEvent.read, FineEvent.act ⟨true, true, 0, 0, 0, 0⟩]).flatten ++
    [FineEvent.read, FineEvent.controller, FineEvent.controller, FineEvent.controller,
      FineEvent.controller, FineEvent.act ⟨true, true, 0, 0, 0, 0⟩]

/-! ## Basic facts -/

theorem get_queue_size_eq_length (q : List Train) : get_queue_size q = q.length := by
  induction q with
  | nil => rfl
  | cons _ _ ih => simp [get_queue_size, ih]

theorem enqueue_true (q : List Train) (t : Train) : enqueue true q t = q ++ [t] := by
  induction q with
  | nil => simp [enqueue]
  | cons x xs ih => rw [enqueue]; simp [ih]

theorem enqueue_false (q : List Train) (t : Train) : enqueue false q t = q := by
  cases q <;> simp [enqueue]

theorem scan_queues_spec (a b e f : Nat) :
    (scan_queues a b e f).1 = max (max a b) (max e f) ∧
    ((scan_queues a b e f).2 = 'A' → a = max (max a b) (max e f)) ∧
    ((scan_queues a b e f).2 = 'B' → b = max (max a b) (max e f)) ∧
    ((scan_queues a b e f).2 = 'E' → e = max (max a b) (max e f)) := by
  unfold scan_queues
  by_cases h1 : a > 0 <;> simp only [h1, if_true, if_false]
  all_goals (by_cases h2 : b > a <;> by_cases h2' : b > 0 <;> simp only [h2, h2', if_true, if_false])
  all_goals (by_cases h3 : e > a <;> by_cases h3' : e > b <;> by_cases h3'' : e > 0 <;>
    simp only [h3, h3', h3'', if_true, if_false])
  all_goals (split_ifs <;> refine ⟨by omega, ?_, ?_, ?_⟩ <;> intro h <;>
    first | omega | (simp at h))

theorem select_queue_eq_first_at_max (a b e f : Nat) :
    select_queue a b e f = first_at_max a b e f := by
  obtain ⟨hm, hA, hB, hE⟩ := scan_queues_spec a b e f
  have hmem : max (max a b) (max e f) = a ∨ max (max a b) (max e f) = b ∨
      max (max a b) (max e f) = e ∨ max (max a b) (max e f) = f := by omega
  unfold select_queue first_at_max
  generalize scan_queues a b e f = r at hm hA hB hE
  obtain ⟨m, q⟩ := r
  simp only at hm hA hB hE ⊢
  generalize max (max a b) (max e f) = M at hm hA hB hE hmem ⊢
  subst hm
  by_cases h1 : m = a
  · simp [h1]
  · have q1 : q ≠ 'A' := fun h => h1 (hA h).symm
    have h1' : ¬ a = m := fun h => h1 h.symm
    by_cases h2 : m = b
    · simp [h1, h1', h2.symm, q1]
    · have q2 : q ≠ 'B' := fun h => h2 (hB h).symm
      have h2' : ¬ b = m := fun h => h2 h.symm
      by_cases h3 : m = e
      · simp [h1, h1', h2, h2', h3.symm, q1, q2]
      · have q3 : q ≠ 'E' := fun h => h3 (hE h).symm
        have h3' : ¬ e = m := fun h => h3 h.symm
        have h4 : m = f := by omega
        simp [h1, h1', h2, h2', h3, h3', h4.symm, q1, q2, q3]

theorem dequeue_cons (t : Train) (q : List Train) : dequeue (t :: q) = (some t, q) := rfl

theorem dequeue_nil : dequeue [] = (none, []) := rfl

theorem run_queue_ops_spec (ops : List QueueOp) (q : List Train) :
    q ++ enqueued_trains ops = (run_queue_ops ops q).2 ++ (run_queue_ops ops q).1 := by
  induction ops generalizing q with
  | nil => simp [run_queue_ops, enqueued_trains]
  | cons op ops ih =>
    cases op with
    | enq t =>
      have := ih (enqueue true q t)
      rw [enqueue_true] at this
      simpa [run_queue_ops, enqueued_trains, enqueue_true] using this
    | deq =>
      cases q with
      | nil => simpa [run_queue_ops, enqueued_trains, dequeue] using ih []
      | cons x xs =>
        have := ih xs
        simp [run_queue_ops, enqueued_trains, dequeue, ← this]

/-! ## C1: selection policy -/

/-- C1: whenever at least one of the four queues is non-empty, the direction the
selection code of `tunnel_controller` chooses is the first of A, B, E, F whose
size equals the maximum of the four sizes, and the node it dequeues is the head
of that direction's queue (which then loses exactly that head); sizes (3,3,1,0)
select A and sizes (0,2,2,5) select F. -/
theorem C1_selection_first_at_max (s : State) (h : total_size s ≠ 0) :
    (select_and_dequeue s).1 =
        first_at_max (get_queue_size s.head_AC) (get_queue_size s.head_BC)
          (get_queue_size s.head_ED) (get_queue_size s.head_FD) ∧
    (∃ train rest, queue_of (select_and_dequeue s).1 s = train :: rest ∧
        (select_and_dequeue s).2.1 = some train ∧
        queue_of (select_and_dequeue s).1 (select_and_dequeue s).2.2 = rest) ∧
    select_queue 3 3 1 0 = 'A' ∧ select_queue 0 2 2 5 = 'F' := by
  refine ⟨select_queue_eq_first_at_max _ _ _ _, ?_, by decide, by decide⟩
  simp only [select_and_dequeue, select_queue_eq_first_at_max]
  obtain ⟨a, b, e, f, c, n, o, t, d⟩ := s
  simp only [total_size, get_queue_size_eq_length] at h
  simp only [first_at_max, get_queue_size_eq_length]
  have hc1 : ('B' : Char) ≠ 'A' := by decide
  have hc2 : ('E' : Char) ≠ 'A' := by decide
  have hc3 : ('E' : Char) ≠ 'B' := by decide
  have hc4 : ('F' : Char) ≠ 'A' := by decide
  have hc5 : ('F' : Char) ≠ 'B' := by decide
  have hc6 : ('F' : Char) ≠ 'E' := by decide
  split_ifs with hA hB hE
  · cases a with
    | nil => exfalso; simp only [List.length_nil] at hA h; omega
    | cons x xs => exact ⟨x, xs, by simp [queue_of, dequeue_selected, dequeue]⟩
  · cases b with
    | nil => exfalso; simp only [List.length_nil] at hA hB h; omega
    | cons x xs => exact ⟨x, xs, by simp [queue_of, dequeue_selected, dequeue, hc1]⟩
  · cases e with
    | nil => exfalso; simp only [List.length_nil] at hA hB hE h; omega
    | cons x xs => exact ⟨x, xs, by simp [queue_of, dequeue_selected, dequeue, hc2, hc3]⟩
  · cases f with
    | nil => exfalso; simp only [List.length_nil] at hA hB hE h; omega
    | cons x xs => exact ⟨x, xs, by simp [queue_of, dequeue_selected, dequeue, hc4, hc5, hc6]⟩

/-- C1 at the state with sizes (3,3,1,0). -/
theorem C1_selection_first_at_max_witness :
    total_size example_state_3310 ≠ 0 ∧
    ((select_and_dequeue example_state_3310).1 =
        first_at_max (get_queue_size example_state_3310.head_AC)
          (get_queue_size example_state_3310.head_BC)
          (get_queue_size example_state_3310.head_ED)
          (get_queue_size example_state_3310.head_FD) ∧
    (∃ train rest, queue_of (select_and_dequeue example_state_3310).1 example_state_3310
          = train :: rest ∧
        (select_and_dequeue example_state_3310).2.1 = some train ∧
        queue_of (select_and_dequeue example_state_3310).1
          (select_and_dequeue example_state_3310).2.2 = rest) ∧
    select_queue 3 3 1 0 = 'A' ∧ select_queue 0 2 2 5 = 'F') :=
  ⟨by decide, C1_selection_first_at_max example_state_3310 (by decide)⟩

/-! ## C3: FIFO -/

/-- C3: on any directional queue, `enqueue` (allocation succeeding) appends the
train at the tail, `dequeue` removes and returns the head (or returns nothing on
an empty queue), and for every sequence of operations starting from the empty
queue the trains handed to `enqueue`, in order, are the dequeued trains, in
order, followed by the trains still queued; so the dequeued sequence is a prefix
of the enqueued one. -/
theorem C3_fifo (ops : List QueueOp) :
    (∀ (q : List Train) (t : Train), enqueue true q t = q ++ [t]) ∧
    (∀ (q : List Train) (t : Train), dequeue (t :: q) = (some t, q)) ∧
    dequeue [] = (none, []) ∧
    enqueued_trains ops = (run_queue_ops ops []).2 ++ (run_queue_ops ops []).1 ∧
    (run_queue_ops ops []).2 <+: enqueued_trains ops := by
  have h := run_queue_ops_spec ops []
  simp only [List.nil_append] at h
  exact ⟨enqueue_true, fun q t => dequeue_cons t q, rfl, h, ⟨_, h.symm⟩⟩

/-! ## C5: the scheduler's wait loop -/

theorem wait_condition_false_iff (s : State) :
    wait_condition s = false ↔
      (s.shutdown_flag = true ∨ s.tunnel_occupied = false) ∧ total_size s ≠ 0 := by
  unfold wait_condition total_size
  cases hs : s.shutdown_flag <;> cases ho : s.tunnel_occupied <;>
    simp [get_queue_size_eq_length]

/-- C5 (the code at the failing input): with shutdown requested, the tunnel free
and all four queues empty, the condition of the wait loop is still true, so the
scheduler goes on waiting: a scheduler step at the wait loop leaves it there. -/
theorem C5_wait_loop_ignores_shutdown_when_empty :
    wait_condition { State.init with shutdown_flag := true } = true ∧
    (tunnel_controller_step
      { Sys.init with g := { State.init with shutdown_flag := true }, pc := PC.waiting }).pc
      = PC.waiting := by
  constructor <;> decide

/-! ## C6: overload state machine -/

theorem tick_overloaded (RAND_MAX : Nat) (p : ℚ) (inp : TickInput) (s : State)
    (h : s.system_overloaded = true) :
    train_generator_tick RAND_MAX p inp s =
      ⟨{ s with current_trains_count := total_size s,
                system_overloaded := decide (total_size s > 0) }, none⟩ := by
  unfold train_generator_tick
  by_cases h0 : total_size s > 0
  · simp [h, h0]
  · have h0' : total_size s = 0 := by omega
    simp [h, h0']

theorem tick_threshold (RAND_MAX : Nat) (p : ℚ) (inp : TickInput) (s : State)
    (h : s.system_overloaded = false) (h10 : 10 < total_size s) :
    train_generator_tick RAND_MAX p inp s =
      ⟨{ s with current_trains_count := total_size s, system_overloaded := true }, none⟩ := by
  unfold train_generator_tick
  simp [h, h10]

theorem tick_normal (RAND_MAX : Nat) (p : ℚ) (inp : TickInput) (s : State)
    (h : s.system_overloaded = false) (h10 : total_size s ≤ 10) :
    train_generator_tick RAND_MAX p inp s =
      admit_train RAND_MAX p inp { s with current_trains_count := total_size s } := by
  unfold train_generator_tick
  have : ¬ 10 < total_size s := by omega
  simp [h, this]

theorem admit_train_flags (RAND_MAX : Nat) (p : ℚ) (inp : TickInput) (s : State) :
    (admit_train RAND_MAX p inp s).state.system_overloaded = s.system_overloaded ∧
    (admit_train RAND_MAX p inp s).state.tunnel_occupied = s.tunnel_occupied ∧
    (admit_train RAND_MAX p inp s).state.shutdown_flag = s.shutdown_flag := by
  simp only [admit_train]
  split_ifs <;> exact ⟨rfl, rfl, rfl⟩

theorem tick_normal_flag (RAND_MAX : Nat) (p : ℚ) (inp : TickInput) (s : State)
    (h : s.system_overloaded = false) (h10 : total_size s ≤ 10) :
    (train_generator_tick RAND_MAX p inp s).state.system_overloaded = false := by
  rw [tick_normal RAND_MAX p inp s h h10, (admit_train_flags _ _ _ _).1]
  exact h

/-- C6: one generator iteration moves the overload flag from NORMAL to
OVERLOADED exactly when the aggregate queued count it reads is above 10, from
OVERLOADED to NORMAL exactly when that count is 0, and in no other case changes
it; an iteration that changes the flag changes no queue, consumes no id and
creates no train. -/
theorem C6_overload_state_machine (RAND_MAX : Nat) (p : ℚ) (inp : TickInput) (s : State) :
    (s.system_overloaded = false →
      ((train_generator_tick RAND_MAX p inp s).state.system_overloaded = true ↔
        10 < total_size s)) ∧
    (s.system_overloaded = true →
      ((train_generator_tick RAND_MAX p inp s).state.system_overloaded = false ↔
        total_size s = 0)) ∧
    ((train_generator_tick RAND_MAX p inp s).state.system_overloaded ≠ s.system_overloaded →
      (train_generator_tick RAND_MAX p inp s).state.head_AC = s.head_AC ∧
      (train_generator_tick RAND_MAX p inp s).state.head_BC = s.head_BC ∧
      (train_generator_tick RAND_MAX p inp s).state.head_ED = s.head_ED ∧
      (train_generator_tick RAND_MAX p inp s).state.head_FD = s.head_FD ∧
      (train_generator_tick RAND_MAX p inp s).state.train_counter = s.train_counter ∧
      (train_generator_tick RAND_MAX p inp s).created = none) := by
  cases h : s.system_overloaded
  · by_cases h10 : 10 < total_size s
    · simp [tick_threshold RAND_MAX p inp s h h10, h10]
    · have hn := tick_normal_flag RAND_MAX p inp s h (by omega)
      simp [hn, h10]
  · rw [tick_overloaded RAND_MAX p inp s h]
    simp

/-! ## C7: passage time -/

theorem tdiv_speed_eq_floor (x : Int) (h : 0 ≤ x) :
    Int.tdiv x train_speed = ⌊((x : ℚ) / (train_speed : ℚ))⌋ := by
  have h1 : Int.tdiv x train_speed = x / train_speed :=
    Int.tdiv_eq_ediv h (by decide)
  have h2 := Rat.floor_intCast_div_natCast x 100
  rw [h1]
  simpa [train_speed] using h2.symm

/-- C7: for every train of non-negative length, the value `process_train` passes
to `sleep` is floor((length + tunnel_length) / train_speed), plus 4 exactly when
the breakdown sample `rand() / RAND_MAX` is below 0.1; with tunnel length 100 and
speed 100 that is 2 (no breakdown) or 6 (breakdown) for length 100, and 3 or 7
for length 200. -/
theorem C7_passage_time (RAND_MAX breakdown_rand : Nat) (queue_id : Char) (train_length : Int)
    (train : Train) (h : 0 ≤ train_length) :
    (process_train RAND_MAX breakdown_rand queue_id train_length train).sleep =
        ⌊(((train_length + tunnel_length : Int) : ℚ) / (train_speed : ℚ))⌋ +
          (if uniform RAND_MAX breakdown_rand < 1 / 10 then 4 else 0) ∧
    tunnel_length = 100 ∧ train_speed = 100 ∧
    (¬ uniform RAND_MAX breakdown_rand < 1 / 10 →
      (process_train RAND_MAX breakdown_rand queue_id 100 train).sleep = 2 ∧
      (process_train RAND_MAX breakdown_rand queue_id 200 train).sleep = 3) ∧
    (uniform RAND_MAX breakdown_rand < 1 / 10 →
      (process_train RAND_MAX breakdown_rand queue_id 100 train).sleep = 6 ∧
      (process_train RAND_MAX breakdown_rand queue_id 200 train).sleep = 7) := by
  have h0 : 0 ≤ train_length + tunnel_length := by
    have : (0 : Int) ≤ tunnel_length := by decide
    omega
  have hf := tdiv_speed_eq_floor _ h0
  have e1 : Int.tdiv (100 + tunnel_length) train_speed = 2 := by decide
  have e2 : Int.tdiv (200 + tunnel_length) train_speed = 3 := by decide
  refine ⟨?_, rfl, rfl, ?_, ?_⟩
  · simp only [process_train]
    split_ifs <;> simp [hf]
  · intro hb
    simp only [process_train, if_neg hb]
    exact ⟨e1, e2⟩
  · intro hb
    simp only [process_train, if_pos hb, e1, e2]
    exact ⟨by decide, by decide⟩

/-- C7 at a train of length 100 whose breakdown draw is half of `RAND_MAX`. -/
theorem C7_passage_time_witness :
    (0 : Int) ≤ 100 ∧
    ((process_train 2147483647 1073741823 'A' 100 ⟨100, 100, 0, "A", "E"⟩).sleep =
        ⌊((((100 : Int) + tunnel_length : Int) : ℚ) / (train_speed : ℚ))⌋ +
          (if uniform 2147483647 1073741823 < 1 / 10 then 4 else 0) ∧
    tunnel_length = 100 ∧ train_speed = 100 ∧
    (¬ uniform 2147483647 1073741823 < 1 / 10 →
      (process_train 2147483647 1073741823 'A' 100 ⟨100, 100, 0, "A", "E"⟩).sleep = 2 ∧
      (process_train 2147483647 1073741823 'A' 200 ⟨100, 100, 0, "A", "E"⟩).sleep = 3) ∧
    (uniform 2147483647 1073741823 < 1 / 10 →
      (process_train 2147483647 1073741823 'A' 100 ⟨100, 100, 0, "A", "E"⟩).sleep = 6 ∧
      (process_train 2147483647 1073741823 'A' 200 ⟨100, 100, 0, "A", "E"⟩).sleep = 7)) :=
  ⟨by decide,
    C7_passage_time 2147483647 1073741823 'A' 100 ⟨100, 100, 0, "A", "E"⟩ (by decide)⟩

/-! ## Facts about one generator iteration -/

theorem uniform_nonneg (RAND_MAX r : Nat) : 0 ≤ uniform RAND_MAX r := by
  unfold uniform
  positivity

theorem admit_train_created_none (RAND_MAX : Nat) (p : ℚ) (inp : TickInput) (s : State)
    (h : (admit_train RAND_MAX p inp s).created = none) :
    (admit_train RAND_MAX p inp s).state = s := by
  simp only [admit_train] at h ⊢
  split_ifs at h ⊢
  all_goals rfl

theorem admit_train_created_some (RAND_MAX : Nat) (p : ℚ) (inp : TickInput) (s : State)
    (t : Train) (h : (admit_train RAND_MAX p inp s).created = some t) :
    t.id = s.train_counter ∧
    (admit_train RAND_MAX p inp s).state.train_counter = s.train_counter + 1 := by
  simp only [admit_train] at h ⊢
  split_ifs at h ⊢
  all_goals first
    | (simp at h; done)
    | (simp only [Option.some.injEq] at h; subst h; exact ⟨rfl, rfl⟩)

theorem admit_train_alloc (RAND_MAX : Nat) (p : ℚ) (inp : TickInput) (s : State)
    (h : inp.train_alloc = true) : ∃ t, (admit_train RAND_MAX p inp s).created = some t := by
  have h0 : ¬ inp.train_alloc = false := by simp [h]
  simp only [admit_train, if_neg h0]
  split_ifs <;> exact ⟨_, rfl⟩

theorem admit_train_p_zero (RAND_MAX : Nat) (inp : TickInput) (s : State) :
    (admit_train RAND_MAX 0 inp s).state.head_AC = s.head_AC ∧
    (admit_train RAND_MAX 0 inp s).state.head_ED = s.head_ED ∧
    (admit_train RAND_MAX 0 inp s).state.head_FD = s.head_FD ∧
    ∀ t, (admit_train RAND_MAX 0 inp s).created = some t →
      t.starting_point = "B" ∧ (t.destination_point = "E" ∨ t.destination_point = "F") ∧
      (admit_train RAND_MAX 0 inp s).state.head_BC = enqueue inp.node_alloc s.head_BC t := by
  have hp : ¬ uniform RAND_MAX inp.arrival_rand < 0 := not_lt.mpr (uniform_nonneg _ _)
  simp only [admit_train, if_neg hp]
  split_ifs
  all_goals refine ⟨rfl, rfl, rfl, fun t h => ?_⟩
  all_goals first
    | (simp at h; done)
    | (simp only [Option.some.injEq] at h
       subst h
       first | exact ⟨rfl, Or.inl rfl, rfl⟩ | exact ⟨rfl, Or.inr rfl, rfl⟩)

theorem tick_cases (RAND_MAX : Nat) (p : ℚ) (inp : TickInput) (s : State) :
    (train_generator_tick RAND_MAX p inp s =
        admit_train RAND_MAX p inp { s with current_trains_count := total_size s } ∧
      s.system_overloaded = false ∧ total_size s ≤ 10) ∨
    ((train_generator_tick RAND_MAX p inp s).created = none ∧
      (train_generator_tick RAND_MAX p inp s).state.head_AC = s.head_AC ∧
      (train_generator_tick RAND_MAX p inp s).state.head_BC = s.head_BC ∧
      (train_generator_tick RAND_MAX p inp s).state.head_ED = s.head_ED ∧
      (train_generator_tick RAND_MAX p inp s).state.head_FD = s.head_FD ∧
      (train_generator_tick RAND_MAX p inp s).state.train_counter = s.train_counter ∧
      (train_generator_tick RAND_MAX p inp s).state.tunnel_occupied = s.tunnel_occupied ∧
      (train_generator_tick RAND_MAX p inp s).state.shutdown_flag = s.shutdown_flag ∧
      (s.system_overloaded = true ∨ 10 < total_size s)) := by
  rcases Bool.eq_false_or_eq_true s.system_overloaded with h | h
  · right
    rw [tick_overloaded RAND_MAX p inp s h]
    exact ⟨rfl, rfl, rfl, rfl, rfl, rfl, rfl, rfl, Or.inl h⟩
  · by_cases h10 : 10 < total_size s
    · right
      rw [tick_threshold RAND_MAX p inp s h h10]
      exact ⟨rfl, rfl, rfl, rfl, rfl, rfl, rfl, rfl, Or.inr h10⟩
    · left
      exact ⟨tick_normal RAND_MAX p inp s h (by omega), h, by omega⟩

/-! ## Facts about executions -/

theorem run_cons (RAND_MAX : Nat) (p : ℚ) (y : Sys) (e : Event) (events : List Event) :
    run RAND_MAX p y (e :: events) = run RAND_MAX p (step RAND_MAX p y e) events := rfl

theorem run_invariant (RAND_MAX : Nat) (p : ℚ) (P : Sys → Prop)
    (hstep : ∀ y e, P y → P (step RAND_MAX p y e)) (y : Sys) (hy : P y)
    (events : List Event) : P (run RAND_MAX p y events) := by
  induction events generalizing y with
  | nil => exact hy
  | cons e events ih => exact ih _ (hstep y e hy)

theorem dequeue_selected_frame (queue_id : Char) (s : State) :
    (dequeue_selected queue_id s).2.train_counter = s.train_counter ∧
    (dequeue_selected queue_id s).2.system_overloaded = s.system_overloaded ∧
    (dequeue_selected queue_id s).2.tunnel_occupied = s.tunnel_occupied ∧
    (dequeue_selected queue_id s).2.shutdown_flag = s.shutdown_flag := by
  unfold dequeue_selected
  split_ifs <;> exact ⟨rfl, rfl, rfl, rfl⟩

theorem tunnel_controller_step_frame (y : Sys) :
    (tunnel_controller_step y).generated = y.generated ∧
    (tunnel_controller_step y).g.train_counter = y.g.train_counter ∧
    (tunnel_controller_step y).g.system_overloaded = y.g.system_overloaded ∧
    (tunnel_controller_step y).g.shutdown_flag = y.g.shutdown_flag := by
  unfold tunnel_controller_step
  cases y.pc
  case select =>
    obtain ⟨h1, h2, _, h4⟩ := dequeue_selected_frame
      (select_queue (get_queue_size y.g.head_AC) (get_queue_size y.g.head_BC)
        (get_queue_size y.g.head_ED) (get_queue_size y.g.head_FD)) y.g
    exact ⟨rfl, h1, h2, h4⟩
  case enter => cases y.train_node_to_process <;> exact ⟨rfl, rfl, rfl, rfl⟩
  all_goals first
    | exact ⟨rfl, rfl, rfl, rfl⟩
    | (simp only []; split_ifs <;> exact ⟨rfl, rfl, rfl, rfl⟩)

theorem tick_created_p_zero (RAND_MAX : Nat) (inp : TickInput) (s : State) (t : Train)
    (h : (train_generator_tick RAND_MAX 0 inp s).created = some t) :
    t.starting_point = "B" ∧ (t.destination_point = "E" ∨ t.destination_point = "F") ∧
    (train_generator_tick RAND_MAX 0 inp s).state.head_BC = enqueue inp.node_alloc s.head_BC t := by
  rcases tick_cases RAND_MAX 0 inp s with ⟨he, _, _⟩ | ⟨hn, _⟩
  · rw [he] at h ⊢
    exact (admit_train_p_zero RAND_MAX inp _).2.2.2 t h
  · rw [hn] at h
    exact absurd h (by simp)

/-! ## C9: `p = 0` -/

/-- C9: with `p = 0`, whatever `rand()` returns, a generator iteration leaves
the AC, ED and FD queues as they were; a train it creates starts at B, is bound
for E or F and is the train handed to `enqueue` on the BC queue (appended at its
tail when the node allocation succeeds); an iteration that runs not overloaded,
with at most 10 trains queued and a successful allocation does create a train;
hence every train generated in any execution with `p = 0` starts at B. -/
theorem C9_p_zero_only_B (RAND_MAX : Nat) (inp : TickInput) (s : State) (events : List Event) :
    (train_generator_tick RAND_MAX 0 inp s).state.head_AC = s.head_AC ∧
    (train_generator_tick RAND_MAX 0 inp s).state.head_ED = s.head_ED ∧
    (train_generator_tick RAND_MAX 0 inp s).state.head_FD = s.head_FD ∧
    (∀ t, (train_generator_tick RAND_MAX 0 inp s).created = some t →
      t.starting_point = "B" ∧ (t.destination_point = "E" ∨ t.destination_point = "F") ∧
      (train_generator_tick RAND_MAX 0 inp s).state.head_BC
        = enqueue inp.node_alloc s.head_BC t ∧
      (inp.node_alloc = true →
        (train_generator_tick RAND_MAX 0 inp s).state.head_BC = s.head_BC ++ [t])) ∧
    (s.system_overloaded = false → total_size s ≤ 10 → inp.train_alloc = true →
      ∃ t, (train_generator_tick RAND_MAX 0 inp s).created = some t) ∧
    (∀ t ∈ (run RAND_MAX 0 Sys.init events).generated, t.starting_point = "B") := by
  refine ⟨?_, ?_, ?_, ?_, ?_, ?_⟩
  · rcases tick_cases RAND_MAX 0 inp s with ⟨he, _, _⟩ | ⟨_, h, _⟩
    · rw [he]; exact (admit_train_p_zero RAND_MAX inp _).1
    · exact h
  · rcases tick_cases RAND_MAX 0 inp s with ⟨he, _, _⟩ | ⟨_, _, _, h, _⟩
    · rw [he]; exact (admit_train_p_zero RAND_MAX inp _).2.1
    · exact h
  · rcases tick_cases RAND_MAX 0 inp s with ⟨he, _, _⟩ | ⟨_, _, _, _, h, _⟩
    · rw [he]; exact (admit_train_p_zero RAND_MAX inp _).2.2.1
    · exact h
  · intro t h
    obtain ⟨h1, h2, h3⟩ := tick_created_p_zero RAND_MAX inp s t h
    refine ⟨h1, h2, h3, fun ha => ?_⟩
    rw [h3, ha, enqueue_true]
  · intro h h10 ha
    rw [tick_normal RAND_MAX 0 inp s h h10]
    exact admit_train_alloc RAND_MAX 0 inp _ ha
  · refine run_invariant RAND_MAX 0 (fun y => ∀ t ∈ y.generated, t.starting_point = "B")
      ?_ Sys.init (fun t ht => absurd ht (by simp [Sys.init])) events
    intro y e hy
    cases e with
    | tick inp =>
      simp only [step]
      split_ifs
      · exact hy
      · intro t ht
        rcases List.mem_append.mp ht with h | h
        · exact hy t h
        · have hc : (train_generator_tick RAND_MAX 0 inp y.g).created = some t := by
            cases hcr : (train_generator_tick RAND_MAX 0 inp y.g).created with
            | none => rw [hcr] at h; simp at h
            | some t0 => rw [hcr] at h; simp at h; rw [h]
          exact (tick_created_p_zero RAND_MAX inp y.g t hc).1
    | controller =>
      simp only [step]
      rw [(tunnel_controller_step_frame y).1]
      exact hy
    | shutdown => exact hy

/-! ## C2: mutual exclusion -/

theorem tick_tunnel_occupied (RAND_MAX : Nat) (p : ℚ) (inp : TickInput) (s : State) :
    (train_generator_tick RAND_MAX p inp s).state.tunnel_occupied = s.tunnel_occupied := by
  rcases tick_cases RAND_MAX p inp s with ⟨he, _, _⟩ | ⟨_, _, _, _, _, _, h, _⟩
  · rw [he]; exact (admit_train_flags RAND_MAX p inp _).2.1
  · exact h

theorem tunnel_invariant_controller (y : Sys) (hy : tunnel_invariant y) :
    tunnel_invariant (tunnel_controller_step y) := by
  obtain ⟨g, pc, qid, node, it, gen⟩ := y
  cases pc
  case select =>
    simp only [tunnel_invariant, tunnel_controller_step] at hy ⊢
    exact ⟨(dequeue_selected_frame _ g).2.2.1.trans hy.1, hy.2⟩
  case enter =>
    cases node <;> simp_all [tunnel_invariant, tunnel_controller_step]
  all_goals
    simp only [tunnel_invariant, tunnel_controller_step] at hy ⊢
    first
      | exact hy
      | (split_ifs <;> exact hy)
      | (obtain ⟨h1, t, h2⟩ := hy; subst h2; exact ⟨h1, rfl⟩)
      | exact ⟨trivial, hy.2⟩

theorem tunnel_invariant_step (RAND_MAX : Nat) (p : ℚ) (y : Sys) (e : Event)
    (hy : tunnel_invariant y) : tunnel_invariant (step RAND_MAX p y e) := by
  cases e with
  | tick inp =>
    simp only [step]
    split_ifs
    · exact hy
    · have h := tick_tunnel_occupied RAND_MAX p inp y.g
      unfold tunnel_invariant at hy ⊢
      simp only [h]
      exact hy
  | controller => exact tunnel_invariant_controller y hy
  | shutdown => exact hy

theorem tunnel_invariant_init : tunnel_invariant Sys.init := ⟨rfl, rfl⟩

/-- C2: in every state an execution (generator iterations, scheduler steps and
shutdown requests, interleaved in any order) reaches from program start, at most
one train is inside `process_train`; the scheduler is at its select-and-dequeue
step only with `tunnel_occupied = 0`; and `tunnel_occupied = 1` whenever a train
is inside `process_train` and whenever the scheduler is at the call or inside
it. -/
theorem C2_mutual_exclusion (RAND_MAX : Nat) (p : ℚ) (events : List Event) :
    (run RAND_MAX p Sys.init events).in_tunnel.length ≤ 1 ∧
    ((run RAND_MAX p Sys.init events).pc = PC.select →
      (run RAND_MAX p Sys.init events).g.tunnel_occupied = false) ∧
    ((run RAND_MAX p Sys.init events).in_tunnel ≠ [] →
      (run RAND_MAX p Sys.init events).g.tunnel_occupied = true) ∧
    ((run RAND_MAX p Sys.init events).pc = PC.enter ∨
        (run RAND_MAX p Sys.init events).pc = PC.in_tunnel →
      (run RAND_MAX p Sys.init events).g.tunnel_occupied = true) := by
  have h := run_invariant RAND_MAX p tunnel_invariant
    (fun y e hy => tunnel_invariant_step RAND_MAX p y e hy) Sys.init tunnel_invariant_init events
  generalize run RAND_MAX p Sys.init events = y at h
  obtain ⟨g, pc, qid, node, it, gen⟩ := y
  cases pc <;> simp only [tunnel_invariant] at h <;>
    first
      | (obtain ⟨h1, t, h2⟩ := h; subst h2; simp [h1])
      | (obtain ⟨h1, h2⟩ := h; subst h2; simp [h1])

/-- The scheduler does get a train into the tunnel: after one generator
iteration and six scheduler steps, train 0 is the one train inside
`process_train`, with `tunnel_occupied = 1`. -/
theorem first_passage_reaches_tunnel :
    (run 2147483647 0 Sys.init first_passage).pc = PC.in_tunnel ∧
    (run 2147483647 0 Sys.init first_passage).in_tunnel = [⟨100, 100, 0, "B", "E"⟩] ∧
    (run 2147483647 0 Sys.init first_passage).g.tunnel_occupied = true ∧
    (run 2147483647 0 Sys.init first_passage).g.head_BC = [] := by
  decide!

/-! ## Lengths of the trains handed to `process_train` -/

theorem mem_enqueue (alloc : Bool) (q : List Train) (t x : Train)
    (h : x ∈ enqueue alloc q t) : x ∈ q ∨ x = t := by
  cases alloc with
  | false => rw [enqueue_false] at h; exact Or.inl h
  | true =>
    rw [enqueue_true] at h
    rcases List.mem_append.mp h with h | h
    · exact Or.inl h
    · exact Or.inr (List.mem_singleton.mp h)

theorem admit_train_length (RAND_MAX : Nat) (p : ℚ) (inp : TickInput) (s : State) (t : Train)
    (h : (admit_train RAND_MAX p inp s).created = some t) :
    (t.length = 100 ∨ t.length = 200) ∧ t.speed = 100 := by
  simp only [admit_train] at h
  split_ifs at h
  all_goals first
    | (simp at h; done)
    | (simp only [Option.some.injEq] at h
       subst h
       first | exact ⟨Or.inl rfl, rfl⟩ | exact ⟨Or.inr rfl, rfl⟩)

theorem admit_train_shape (RAND_MAX : Nat) (p : ℚ) (inp : TickInput) (s : State) :
    ((admit_train RAND_MAX p inp s).created = none ∧ (admit_train RAND_MAX p inp s).state = s) ∨
    ∃ t, (admit_train RAND_MAX p inp s).created = some t ∧
      ((admit_train RAND_MAX p inp s).state =
          { s with train_counter := s.train_counter + 1,
                   head_AC := enqueue inp.node_alloc s.head_AC t } ∨
        (admit_train RAND_MAX p inp s).state =
          { s with train_counter := s.train_counter + 1,
                   head_BC := enqueue inp.node_alloc s.head_BC t } ∨
        (admit_train RAND_MAX p inp s).state =
          { s with train_counter := s.train_counter + 1,
                   head_ED := enqueue inp.node_alloc s.head_ED t } ∨
        (admit_train RAND_MAX p inp s).state =
          { s with train_counter := s.train_counter + 1,
                   head_FD := enqueue inp.node_alloc s.head_FD t }) := by
  simp only [admit_train]
  generalize (if uniform RAND_MAX inp.length_rand < 7 / 10 then (100 : Int) else 200) = len
  generalize (if uniform RAND_MAX inp.destination_rand < 1 / 2 then "E" else "F") = d1
  generalize (if uniform RAND_MAX inp.destination_rand < 1 / 2 then "A" else "B") = d2
  split_ifs
  · exact Or.inl ⟨rfl, rfl⟩
  · exact Or.inr ⟨_, rfl, Or.inl rfl⟩
  · exact Or.inr ⟨_, rfl, Or.inr (Or.inr (Or.inr rfl))⟩
  · exact Or.inr ⟨_, rfl, Or.inr (Or.inr (Or.inl rfl))⟩
  · exact Or.inr ⟨_, rfl, Or.inr (Or.inl rfl)⟩

theorem admit_train_queued (RAND_MAX : Nat) (p : ℚ) (inp : TickInput) (s : State) (x : Train)
    (h : x ∈ all_queued (admit_train RAND_MAX p inp s).state) :
    x ∈ all_queued s ∨ (admit_train RAND_MAX p inp s).created = some x := by
  rcases admit_train_shape RAND_MAX p inp s with ⟨_, hs⟩ | ⟨t, hc, hs⟩
  · rw [hs] at h; exact Or.inl h
  · rw [hc]
    rcases hs with hs | hs | hs | hs
    all_goals
      rw [hs] at h
      simp only [all_queued, List.mem_append] at h ⊢
      rcases h with ((h | h) | h) | h
      all_goals first
        | (left; tauto)
        | (rcases mem_enqueue _ _ _ _ h with h | h
           · left; tauto
           · right; rw [h])

theorem dequeue_selected_queued (queue_id : Char) (s : State) :
    (∀ x ∈ all_queued (dequeue_selected queue_id s).2, x ∈ all_queued s) ∧
    ∀ t, (dequeue_selected queue_id s).1 = some t → t ∈ all_queued s := by
  obtain ⟨a, b, e, f, c, n, o, t, d⟩ := s
  unfold dequeue_selected
  split_ifs
  · cases a <;> simp [dequeue, all_queued]
    tauto
  · cases b <;> simp [dequeue, all_queued]
    tauto
  · cases e <;> simp [dequeue, all_queued]
    tauto
  · cases f <;> simp [dequeue, all_queued]
    tauto
  · simp

theorem lengths_invariant_step (RAND_MAX : Nat) (p : ℚ) (y : Sys) (e : Event)
    (hy : lengths_invariant y) : lengths_invariant (step RAND_MAX p y e) := by
  obtain ⟨hq, hn⟩ := hy
  cases e with
  | tick inp =>
    simp only [step]
    split_ifs
    · exact ⟨hq, hn⟩
    · refine ⟨?_, hn⟩
      intro x hx
      simp only at hx
      rcases tick_cases RAND_MAX p inp y.g with ⟨he, _, _⟩ | ⟨_, h1, h2, h3, h4, _⟩
      · rw [he] at hx
        rcases admit_train_queued _ _ _ _ x hx with h | h
        · exact hq x h
        · exact (admit_train_length _ _ _ _ x h).1
      · apply hq
        simpa [all_queued, h1, h2, h3, h4] using hx
  | controller =>
    obtain ⟨g, pc, qid, node, it, gen⟩ := y
    have hd := dequeue_selected_queued
      (select_queue (get_queue_size g.head_AC) (get_queue_size g.head_BC)
        (get_queue_size g.head_ED) (get_queue_size g.head_FD)) g
    cases pc
    case select =>
      exact ⟨fun x hx => hq x (hd.1 x hx), fun t ht => hq t (hd.2 t ht)⟩
    case enter =>
      cases node <;> exact ⟨hq, hn⟩
    case in_tunnel =>
      exact ⟨hq, by simp [step, tunnel_controller_step]⟩
    all_goals
      simp only [step, tunnel_controller_step]
      first
        | exact ⟨hq, hn⟩
        | (split_ifs <;> exact ⟨hq, hn⟩)
  | shutdown => exact ⟨hq, hn⟩

/-- In every execution from program start, a train that waits in a queue or
that the scheduler holds (the one it hands to `process_train`) has length 100
or 200, so the argument `train_length` of `process_train` is never negative. -/
theorem processed_train_length (RAND_MAX : Nat) (p : ℚ) (events : List Event) (t : Train)
    (h : t ∈ all_queued (run RAND_MAX p Sys.init events).g ∨
      (run RAND_MAX p Sys.init events).train_node_to_process = some t) :
    t.length = 100 ∨ t.length = 200 := by
  have hinv := run_invariant RAND_MAX p lengths_invariant
    (fun y e hy => lengths_invariant_step RAND_MAX p y e hy) Sys.init
    ⟨fun t ht => absurd ht (by simp [Sys.init, State.init, all_queued]),
      fun t ht => absurd ht (by simp [Sys.init])⟩ events
  rcases h with h | h
  · exact hinv.1 t h
  · exact hinv.2 t h

/-! ## C8: train ids -/

theorem ids_invariant_step (RAND_MAX : Nat) (p : ℚ) (y : Sys) (e : Event)
    (hy : ids_invariant y) : ids_invariant (step RAND_MAX p y e) := by
  cases e with
  | tick inp =>
    simp only [step]
    split_ifs
    · exact hy
    · obtain ⟨hp, hlt⟩ := hy
      cases hcr : (train_generator_tick RAND_MAX p inp y.g).created with
      | none =>
        have hc : (train_generator_tick RAND_MAX p inp y.g).state.train_counter
            = y.g.train_counter := by
          rcases tick_cases RAND_MAX p inp y.g with ⟨he, _, _⟩ | ⟨_, _, _, _, _, h, _⟩
          · rw [he] at hcr ⊢
            rw [admit_train_created_none _ _ _ _ hcr]
          · exact h
        unfold ids_invariant
        simp only [Option.toList, List.append_nil, hc]
        exact ⟨hp, hlt⟩
      | some t =>
        have hc : t.id = y.g.train_counter ∧
            (train_generator_tick RAND_MAX p inp y.g).state.train_counter
              = y.g.train_counter + 1 := by
          rcases tick_cases RAND_MAX p inp y.g with ⟨he, _, _⟩ | ⟨hn, _⟩
          · rw [he] at hcr ⊢
            exact admit_train_created_some _ _ _ _ t hcr
          · rw [hn] at hcr; exact absurd hcr (by simp)
        unfold ids_invariant
        simp only [Option.toList, List.map_append, List.map_cons, List.map_nil, hc.2]
        refine ⟨List.pairwise_append.mpr ⟨hp, List.pairwise_singleton _ _, ?_⟩, ?_⟩
        · intro a ha b hb
          obtain ⟨t0, ht0, rfl⟩ := List.mem_map.mp ha
          rw [List.mem_singleton.mp hb, hc.1]
          exact hlt t0 ht0
        · intro t0 ht0
          rcases List.mem_append.mp ht0 with h | h
          · have := hlt t0 h; omega
          · rw [List.mem_singleton.mp h, hc.1]; omega
  | controller =>
    obtain ⟨h1, h2, _, _⟩ := tunnel_controller_step_frame y
    unfold ids_invariant
    simp only [step, h1, h2]
    exact hy
  | shutdown => exact hy

/-- C8: in every execution from program start (`train_counter = 0`, unbounded
integers), the ids of the generated trains, in creation order, are strictly
increasing, hence pairwise distinct. -/
theorem C8_ids_strictly_increasing (RAND_MAX : Nat) (p : ℚ) (events : List Event) :
    List.Pairwise (fun a b => a < b)
      ((run RAND_MAX p Sys.init events).generated.map Train.id) ∧
    ((run RAND_MAX p Sys.init events).generated.map Train.id).Nodup := by
  have h := (run_invariant RAND_MAX p ids_invariant
    (fun y e hy => ids_invariant_step RAND_MAX p y e hy) Sys.init
    ⟨List.Pairwise.nil, fun t ht => absurd ht (by simp [Sys.init])⟩ events).1
  exact ⟨h, h.imp (fun hab => ne_of_lt hab)⟩

/-! ## C4: overload backpressure -/

/-- C4 as stated fails: with `p = 0` and `RAND_MAX = 2147483647`, eleven
generator iterations bring the aggregate queued count to 11 (above 10) with
`system_overloaded` still 0; the scheduler then dequeues one train (the count
goes 11, 11, 11, 10 and never reaches 0); the next generator iteration reads 10,
is not overloaded, consumes id 11 and enqueues a twelfth train. -/
theorem C4_admission_after_count_exceeded_10 :
    observe (run 2147483647 0 Sys.init race_fill) = (11, 11, false) ∧
    trajectory 2147483647 0 (run 2147483647 0 Sys.init race_fill) race_dequeue
      = [(11, 11, false), (11, 11, false), (11, 11, false), (10, 11, false)] ∧
    observe (run 2147483647 0 Sys.init (race_fill ++ race_dequeue ++ [tick_zero]))
      = (11, 12, false) ∧
    ((run 2147483647 0 Sys.init (race_fill ++ race_dequeue ++ [tick_zero])).generated.map
      Train.id) = [0, 1, 2, 3, 4, 5, 6, 7, 8, 9, 10, 11] := by
  decide!

theorem overloaded_run (RAND_MAX : Nat) (p : ℚ) (events : List Event) (y : Sys)
    (hov : y.g.system_overloaded = true) (hnd : never_drained RAND_MAX p y events = true) :
    (run RAND_MAX p y events).g.system_overloaded = true ∧
    (run RAND_MAX p y events).generated = y.generated ∧
    (run RAND_MAX p y events).g.train_counter = y.g.train_counter := by
  induction events generalizing y with
  | nil => exact ⟨hov, rfl, rfl⟩
  | cons e events ih =>
    simp only [never_drained, Bool.and_eq_true, decide_eq_true_eq] at hnd
    obtain ⟨h0, hnd⟩ := hnd
    have key : (step RAND_MAX p y e).g.system_overloaded = true ∧
        (step RAND_MAX p y e).generated = y.generated ∧
        (step RAND_MAX p y e).g.train_counter = y.g.train_counter := by
      cases e with
      | tick inp =>
        simp only [step]
        split_ifs
        · exact ⟨hov, rfl, rfl⟩
        · rw [tick_overloaded RAND_MAX p inp y.g hov]
          have : 0 < total_size y.g := by omega
          simp [this]
      | controller =>
        obtain ⟨h1, h2, h3, _⟩ := tunnel_controller_step_frame y
        exact ⟨h3.trans hov, h1, h2⟩
      | shutdown => exact ⟨hov, rfl, rfl⟩
    obtain ⟨k1, k2, k3⟩ := key
    obtain ⟨i1, i2, i3⟩ := ih (step RAND_MAX p y e) k1 hnd
    rw [run_cons]
    exact ⟨i1, i2.trans k2, i3.trans k3⟩

/-- C4 (amended): a generator iteration that reads an aggregate queued count
above 10 leaves `system_overloaded` set, creates no train, changes no queue and
consumes no id; and from any state
with `system_overloaded` set, along every execution (generator iterations,
scheduler steps, shutdown requests) during which the aggregate count never is 0,
the flag stays set, no train is generated and no id is consumed, and a generator
iteration in the state reached creates no train, changes no queue and leaves
`train_counter` as it is. -/
theorem C4_backpressure_once_overload_observed (RAND_MAX : Nat) (p : ℚ) (y : Sys)
    (events : List Event) (inp : TickInput)
    (hov : y.g.system_overloaded = true)
    (hnd : never_drained RAND_MAX p y events = true) :
    (∀ (s : State) (inp0 : TickInput), 10 < total_size s →
      (train_generator_tick RAND_MAX p inp0 s).state.system_overloaded = true ∧
      (train_generator_tick RAND_MAX p inp0 s).created = none ∧
      all_queued (train_generator_tick RAND_MAX p inp0 s).state = all_queued s ∧
      (train_generator_tick RAND_MAX p inp0 s).state.train_counter = s.train_counter) ∧
    (run RAND_MAX p y events).g.system_overloaded = true ∧
    (run RAND_MAX p y events).generated = y.generated ∧
    (run RAND_MAX p y events).g.train_counter = y.g.train_counter ∧
    (train_generator_tick RAND_MAX p inp (run RAND_MAX p y events).g).created = none ∧
    (train_generator_tick RAND_MAX p inp (run RAND_MAX p y events).g).state.head_AC
      = (run RAND_MAX p y events).g.head_AC ∧
    (train_generator_tick RAND_MAX p inp (run RAND_MAX p y events).g).state.head_BC
      = (run RAND_MAX p y events).g.head_BC ∧
    (train_generator_tick RAND_MAX p inp (run RAND_MAX p y events).g).state.head_ED
      = (run RAND_MAX p y events).g.head_ED ∧
    (train_generator_tick RAND_MAX p inp (run RAND_MAX p y events).g).state.head_FD
      = (run RAND_MAX p y events).g.head_FD ∧
    (train_generator_tick RAND_MAX p inp (run RAND_MAX p y events).g).state.train_counter
      = (run RAND_MAX p y events).g.train_counter := by
  obtain ⟨h1, h2, h3⟩ := overloaded_run RAND_MAX p events y hov hnd
  refine ⟨?_, h1, h2, h3, ?_⟩
  · intro s inp0 h10
    rcases Bool.eq_false_or_eq_true s.system_overloaded with h | h
    · rw [tick_overloaded RAND_MAX p inp0 s h]
      have : 0 < total_size s := by omega
      exact ⟨by simp [this], rfl, rfl, rfl⟩
    · rw [tick_threshold RAND_MAX p inp0 s h h10]
      exact ⟨rfl, rfl, rfl, rfl⟩
  · rw [tick_overloaded RAND_MAX p inp _ h1]
    exact ⟨rfl, rfl, rfl, rfl, rfl, rfl⟩

/-- C4 (amended) at the state reached by twelve generator iterations, followed
by one dequeue by the scheduler. -/
theorem C4_backpressure_once_overload_observed_witness :
    overloaded_example.g.system_overloaded = true ∧
    never_drained 2147483647 0 overloaded_example race_dequeue = true ∧
    ((∀ (s : State) (inp0 : TickInput), 10 < total_size s →
      (train_generator_tick 2147483647 0 inp0 s).state.system_overloaded = true ∧
      (train_generator_tick 2147483647 0 inp0 s).created = none ∧
      all_queued (train_generator_tick 2147483647 0 inp0 s).state = all_queued s ∧
      (train_generator_tick 2147483647 0 inp0 s).state.train_counter = s.train_counter) ∧
    (run 2147483647 0 overloaded_example race_dequeue).g.system_overloaded = true ∧
    (run 2147483647 0 overloaded_example race_dequeue).generated
      = overloaded_example.generated ∧
    (run 2147483647 0 overloaded_example race_dequeue).g.train_counter
      = overloaded_example.g.train_counter ∧
    (train_generator_tick 2147483647 0 ⟨true, true, 0, 0, 0, 0⟩
      (run 2147483647 0 overloaded_example race_dequeue).g).created = none ∧
    (train_generator_tick 2147483647 0 ⟨true, true, 0, 0, 0, 0⟩
      (run 2147483647 0 overloaded_example race_dequeue).g).state.head_AC
      = (run 2147483647 0 overloaded_example race_dequeue).g.head_AC ∧
    (train_generator_tick 2147483647 0 ⟨true, true, 0, 0, 0, 0⟩
      (run 2147483647 0 overloaded_example race_dequeue).g).state.head_BC
      = (run 2147483647 0 overloaded_example race_dequeue).g.head_BC ∧
    (train_generator_tick 2147483647 0 ⟨true, true, 0, 0, 0, 0⟩
      (run 2147483647 0 overloaded_example race_dequeue).g).state.head_ED
      = (run 2147483647 0 overloaded_example race_dequeue).g.head_ED ∧
    (train_generator_tick 2147483647 0 ⟨true, true, 0, 0, 0, 0⟩
      (run 2147483647 0 overloaded_example race_dequeue).g).state.head_FD
      = (run 2147483647 0 overloaded_example race_dequeue).g.head_FD ∧
    (train_generator_tick 2147483647 0 ⟨true, true, 0, 0, 0, 0⟩
      (run 2147483647 0 overloaded_example race_dequeue).g).state.train_counter
      = (run 2147483647 0 overloaded_example race_dequeue).g.train_counter) :=
  ⟨by decide!, by decide!,
    C4_backpressure_once_overload_observed 2147483647 0 overloaded_example race_dequeue
      ⟨true, true, 0, 0, 0, 0⟩ (by decide!) (by decide!)⟩

/-! ## C10: the waiting list -/

theorem extract_train_IDs_eq (q : List Train) (acc : List Int) :
    extract_train_IDs q acc = acc ++ q.map Train.id := by
  induction q generalizing acc with
  | nil => simp [extract_train_IDs]
  | cons x xs ih => simp [extract_train_IDs, ih]

theorem collect_train_IDs_eq (s : State) :
    collect_train_IDs s = (s.head_AC ++ s.head_BC ++ s.head_ED ++ s.head_FD).map Train.id := by
  simp [collect_train_IDs, extract_train_IDs_eq]

theorem bubble_pass_perm (k : Nat) (l : List Int) : (bubble_pass k l).Perm l := by
  induction k generalizing l with
  | zero => simp [bubble_pass]
  | succ k ih =>
    match l with
    | [] => simp [bubble_pass]
    | [x] => simp [bubble_pass]
    | x :: y :: rest =>
      simp only [bubble_pass]
      split_ifs
      · exact ((ih (x :: rest)).cons y).trans (List.Perm.swap x y rest)
      · exact (ih (y :: rest)).cons x

theorem bubble_pass_append (k : Nat) (front back : List Int) (h : k < front.length) :
    bubble_pass k (front ++ back) = bubble_pass k front ++ back := by
  induction k generalizing front with
  | zero => simp [bubble_pass]
  | succ k ih =>
    match front, h with
    | x :: y :: rest, h =>
      have h1 : k < (x :: rest).length := by simp at h ⊢; omega
      have h2 : k < (y :: rest).length := by simp at h ⊢; omega
      have e1 := ih (x :: rest) h1
      have e2 := ih (y :: rest) h2
      simp only [List.cons_append] at e1 e2
      simp only [List.cons_append, bubble_pass]
      split_ifs
      · exact congrArg (List.cons y) e1
      · exact congrArg (List.cons x) e2
    | [x], h => simp at h
    | [], h => simp at h

theorem bubble_pass_last (k : Nat) (l : List Int) (h : l.length = k + 1) :
    ∃ front top, bubble_pass k l = front ++ [top] ∧ ∀ z ∈ front, z ≤ top := by
  induction k generalizing l with
  | zero =>
    match l, h with
    | [x], _ => exact ⟨[], x, by simp [bubble_pass], by simp⟩
  | succ k ih =>
    match l, h with
    | x :: y :: rest, h =>
      have hx : (x :: rest).length = k + 1 := by simp at h ⊢; omega
      have hy : (y :: rest).length = k + 1 := by simp at h ⊢; omega
      simp only [bubble_pass]
      split_ifs with hxy
      · obtain ⟨front, top, e, hle⟩ := ih (x :: rest) hx
        refine ⟨y :: front, top, by rw [e]; rfl, ?_⟩
        have hmem : x ∈ front ++ [top] := by
          rw [← e]; exact (bubble_pass_perm k (x :: rest)).symm.subset (List.mem_cons_self _ _)
        have hxt : x ≤ top := by
          rcases List.mem_append.mp hmem with hm | hm
          · exact hle x hm
          · rw [List.mem_singleton.mp hm]
        intro z hz
        rcases List.mem_cons.mp hz with rfl | hz
        · omega
        · exact hle z hz
      · obtain ⟨front, top, e, hle⟩ := ih (y :: rest) hy
        refine ⟨x :: front, top, by rw [e]; rfl, ?_⟩
        have hmem : y ∈ front ++ [top] := by
          rw [← e]; exact (bubble_pass_perm k (y :: rest)).symm.subset (List.mem_cons_self _ _)
        have hyt : y ≤ top := by
          rcases List.mem_append.mp hmem with hm | hm
          · exact hle y hm
          · rw [List.mem_singleton.mp hm]
        intro z hz
        rcases List.mem_cons.mp hz with rfl | hz
        · omega
        · exact hle z hz

theorem sort_invariant_round (n i : Nat) (a : List Int) (hi : i + 1 < n)
    (h : sort_invariant n i a) : sort_invariant n (i + 1) (bubble_pass (n - i - 1) a) := by
  obtain ⟨front, back, rfl, hlen, hs, hle⟩ := h
  have hk : n - i - 1 < front.length := by omega
  rw [bubble_pass_append _ _ _ hk]
  obtain ⟨f2, top, e, hf2⟩ := bubble_pass_last (n - i - 1) front (by omega)
  have hperm := bubble_pass_perm (n - i - 1) front
  rw [e] at hperm ⊢
  have hsub : ∀ z ∈ f2 ++ [top], z ∈ front := fun z hz => hperm.subset hz
  refine ⟨f2, top :: back, by simp, ?_, ?_, ?_⟩
  · have := hperm.length_eq
    simp at this
    omega
  · refine List.sorted_cons.mpr ⟨fun y hy => hle top (hsub top (by simp)) y hy, hs⟩
  · intro x hx y hy
    rcases List.mem_cons.mp hy with rfl | hy
    · exact hf2 x hx
    · exact hle x (hsub x (by simp [hx])) y hy

theorem bubble_rounds (n m : Nat) (a : List Int) (hlen : a.length = n) (hm : m + 1 ≤ n) :
    sort_invariant n m
        ((List.range m).foldl (fun trainIDs i => bubble_pass (n - i - 1) trainIDs) a) ∧
      ((List.range m).foldl (fun trainIDs i => bubble_pass (n - i - 1) trainIDs) a).Perm a := by
  induction m with
  | zero => exact ⟨⟨a, [], by simp, by simpa using hlen, List.sorted_nil, by simp⟩, List.Perm.refl _⟩
  | succ m ih =>
    obtain ⟨hinv, hperm⟩ := ih (by omega)
    rw [List.range_succ, List.foldl_append]
    simp only [List.foldl_cons, List.foldl_nil]
    exact ⟨sort_invariant_round n m _ (by omega) hinv, (bubble_pass_perm _ _).trans hperm⟩

theorem bubble_sort_sorted_perm (a : List Int) :
    List.Sorted (fun x y => x ≤ y) (bubble_sort a.length a) ∧ (bubble_sort a.length a).Perm a := by
  unfold bubble_sort
  rcases Nat.eq_zero_or_pos a.length with h0 | hpos
  · have : a = [] := List.length_eq_zero.mp h0
    subst this
    simp
  · obtain ⟨⟨front, back, e, hlen, hs, hle⟩, hperm⟩ :=
      bubble_rounds a.length (a.length - 1) a rfl (by omega)
    refine ⟨?_, hperm⟩
    rw [e]
    match front, hlen with
    | [x], _ =>
      exact List.sorted_cons.mpr ⟨fun y hy => hle x (by simp) y hy, hs⟩
    | [], hlen => simp at hlen; omega
    | _ :: _ :: _, hlen => simp at hlen; omega

theorem foldl_range_getD (f : String → Int → String) (xs ys : List Int) (acc : String) :
    (List.range xs.length).foldl (fun r i => f r ((xs ++ ys).getD i 0)) acc
      = xs.foldl f acc := by
  induction xs using List.reverseRecOn generalizing ys with
  | nil => simp
  | append_singleton xs x ih =>
    have h := ih ([x] ++ ys)
    rw [← List.append_assoc] at h
    rw [List.length_append, List.length_singleton, List.range_succ, List.foldl_append,
      List.foldl_append, h]
    have hx : (xs ++ [x] ++ ys).getD xs.length 0 = x := by
      rw [List.append_assoc, List.getD_eq_getElem?_getD, List.getElem?_append_right (le_refl _)]
      simp
    simp only [List.foldl_cons, List.foldl_nil, hx]

theorem comma_fold (xs : List Int) (last : Int) (acc : String) :
    xs.foldl (fun r x => r ++ format_d x ++ ",") acc ++ format_d last
      = join_from acc ((xs ++ [last]).map format_d) := by
  induction xs generalizing acc with
  | nil => simp [join_from, String.intercalate.go]
  | cons x xs ih =>
    rw [List.foldl_cons, ih]
    cases xs with
    | nil => simp [join_from, String.intercalate.go]
    | cons z zs => simp [join_from, String.intercalate.go]

theorem concatenateWithCommas_snoc (xs : List Int) (last : Int) :
    concatenateWithCommas true (xs ++ [last]) (xs ++ [last]).length
      = some (String.intercalate "," ((xs ++ [last]).map format_d)) := by
  have hfold := foldl_range_getD (fun r x => r ++ format_d x ++ ",") xs [last] ""
  have hjoin := comma_fold xs last ""
  have hlast : (xs ++ [last]).getD xs.length 0 = last := by simp
  unfold concatenateWithCommas
  simp only [List.length_append, List.length_singleton, Nat.add_sub_cancel]
  rw [if_neg (by omega), if_neg (by simp)]
  simp only [hfold, hlast, hjoin]
  cases xs with
  | nil => simp [join_from, String.intercalate]
  | cons z zs => simp [join_from, String.intercalate]

theorem concatenateWithCommas_eq (array : List Int) (h : array ≠ []) :
    concatenateWithCommas true array array.length
      = some (String.intercalate "," (array.map format_d)) := by
  obtain ⟨xs, last, rfl⟩ : ∃ xs last, array = xs ++ [last] :=
    ⟨array.dropLast, array.getLast h, (List.dropLast_append_getLast h).symm⟩
  exact concatenateWithCommas_snoc xs last

theorem total_size_eq_collect_length (s : State) :
    total_size s = (collect_train_IDs s).length := by
  simp [total_size, collect_train_IDs_eq, get_queue_size_eq_length]
  omega

theorem sorted_train_IDs_length (s : State) : (sorted_train_IDs s).length = total_size s := by
  unfold sorted_train_IDs
  rw [total_size_eq_collect_length]
  exact (bubble_sort_sorted_perm (collect_train_IDs s)).2.length_eq

/-- C10: the id array of `create_trains_waiting_string`, just before it is
joined, is in ascending order and is a permutation of the ids of the trains in
the AC, BC, ED and FD queues; `concatenateWithCommas` (its buffer allocated)
renders a non-empty array as its ids in `%d` form separated by single commas,
with no comma at the end, and yields no string for an empty one; so the function
yields no string exactly when no train is waiting, and otherwise the comma-joined
ascending ids. -/
theorem C10_waiting_list (s : State) :
    List.Sorted (fun a b => a ≤ b) (sorted_train_IDs s) ∧
    (sorted_train_IDs s).Perm
      ((s.head_AC ++ s.head_BC ++ s.head_ED ++ s.head_FD).map Train.id) ∧
    (∀ array : List Int, array ≠ [] →
      concatenateWithCommas true array array.length
        = some (String.intercalate "," (array.map format_d))) ∧
    concatenateWithCommas true [] 0 = none ∧
    (create_trains_waiting_string true s = none ↔
      s.head_AC = [] ∧ s.head_BC = [] ∧ s.head_ED = [] ∧ s.head_FD = []) ∧
    (total_size s ≠ 0 →
      create_trains_waiting_string true s
        = some (String.intercalate "," ((sorted_train_IDs s).map format_d))) ∧
    create_trains_waiting_string true example_state_3310 = some "0,1,2,3,4,5,6" := by
  have hsp := bubble_sort_sorted_perm (collect_train_IDs s)
  rw [← total_size_eq_collect_length, collect_train_IDs_eq] at hsp
  have hcoll := collect_train_IDs_eq s
  have hlen := sorted_train_IDs_length s
  have hsome : total_size s ≠ 0 →
      create_trains_waiting_string true s
        = some (String.intercalate "," ((sorted_train_IDs s).map format_d)) := by
    intro h0
    have hne : sorted_train_IDs s ≠ [] := by
      intro h; rw [h] at hlen; exact h0 hlen.symm
    have := concatenateWithCommas_eq (sorted_train_IDs s) hne
    rw [hlen] at this
    exact this
  refine ⟨?_, ?_, concatenateWithCommas_eq, rfl, ?_, hsome, by decide⟩
  · unfold sorted_train_IDs; rw [hcoll]; exact hsp.1
  · unfold sorted_train_IDs; rw [hcoll]; exact hsp.2
  · constructor
    · intro hnone
      by_cases h0 : total_size s = 0
      · simp only [total_size, get_queue_size_eq_length] at h0
        refine ⟨?_, ?_, ?_, ?_⟩ <;> apply List.length_eq_zero.mp <;> omega
      · rw [hsome h0] at hnone
        exact absurd hnone (by simp)
    · rintro ⟨h1, h2, h3, h4⟩
      have h0 : total_size s = 0 := by simp [total_size, h1, h2, h3, h4, get_queue_size]
      simp [create_trains_waiting_string, concatenateWithCommas, h0]

/-! ## C11: bounded backlog -/

theorem get_queue_size_enqueue_le (alloc : Bool) (q : List Train) (t : Train) :
    get_queue_size (enqueue alloc q t) ≤ get_queue_size q + 1 := by
  cases alloc with
  | false => rw [enqueue_false]; omega
  | true => rw [enqueue_true]; simp [get_queue_size_eq_length]

theorem admit_train_total_le (RAND_MAX : Nat) (p : ℚ) (inp : TickInput) (s : State) :
    total_size (admit_train RAND_MAX p inp s).state ≤ total_size s + 1 := by
  rcases admit_train_shape RAND_MAX p inp s with ⟨_, hs⟩ | ⟨t, _, hs | hs | hs | hs⟩
  · rw [hs]; omega
  · rw [hs]
    have := get_queue_size_enqueue_le inp.node_alloc s.head_AC t
    simp only [total_size]
    omega
  · rw [hs]
    have := get_queue_size_enqueue_le inp.node_alloc s.head_BC t
    simp only [total_size]
    omega
  · rw [hs]
    have := get_queue_size_enqueue_le inp.node_alloc s.head_ED t
    simp only [total_size]
    omega
  · rw [hs]
    have := get_queue_size_enqueue_le inp.node_alloc s.head_FD t
    simp only [total_size]
    omega

theorem tick_total (RAND_MAX : Nat) (p : ℚ) (inp : TickInput) (s : State) :
    total_size (train_generator_tick RAND_MAX p inp s).state ≤ total_size s + 1 ∧
    (total_size s < total_size (train_generator_tick RAND_MAX p inp s).state →
      s.system_overloaded = false ∧ total_size s ≤ 10) := by
  rcases tick_cases RAND_MAX p inp s with ⟨he, hf, h10⟩ | ⟨_, h1, h2, h3, h4, _⟩
  · rw [he]
    have h := admit_train_total_le RAND_MAX p inp
      { s with current_trains_count := total_size s }
    exact ⟨h, fun _ => ⟨hf, h10⟩⟩
  · have e : total_size (train_generator_tick RAND_MAX p inp s).state = total_size s := by
      simp only [total_size, h1, h2, h3, h4]
    rw [e]
    exact ⟨by omega, fun h => absurd h (by omega)⟩

theorem dequeue_le (q : List Train) : get_queue_size (dequeue q).2 ≤ get_queue_size q := by
  cases q with
  | nil => exact le_refl _
  | cons x xs => simp [dequeue, get_queue_size]

theorem dequeue_selected_total_le (queue_id : Char) (s : State) :
    total_size (dequeue_selected queue_id s).2 ≤ total_size s := by
  unfold dequeue_selected
  split_ifs
  · have := dequeue_le s.head_AC
    simp only [total_size]; omega
  · have := dequeue_le s.head_BC
    simp only [total_size]; omega
  · have := dequeue_le s.head_ED
    simp only [total_size]; omega
  · have := dequeue_le s.head_FD
    simp only [total_size]; omega
  · exact le_refl _

theorem tunnel_controller_step_total_le (y : Sys) :
    total_size (tunnel_controller_step y).g ≤ total_size y.g := by
  obtain ⟨g, pc, qid, node, it, gen⟩ := y
  cases pc
  case select => exact dequeue_selected_total_le _ g
  case enter => cases node <;> exact le_refl _
  all_goals
    simp only [tunnel_controller_step]
    first
      | exact le_refl _
      | (split_ifs <;> exact le_refl _)

theorem backlog_invariant_step (RAND_MAX : Nat) (p : ℚ) (y : Sys) (e : Event)
    (hy : backlog_invariant y) : backlog_invariant (step RAND_MAX p y e) := by
  unfold backlog_invariant at hy ⊢
  cases e with
  | tick inp =>
    simp only [step]
    split_ifs
    · exact hy
    · obtain ⟨hle, himp⟩ := tick_total RAND_MAX p inp y.g
      show total_size (train_generator_tick RAND_MAX p inp y.g).state ≤ 11
      by_cases hlt : total_size y.g < total_size (train_generator_tick RAND_MAX p inp y.g).state
      · have := (himp hlt).2
        omega
      · omega
  | controller =>
    have := tunnel_controller_step_total_le y
    show total_size (tunnel_controller_step y).g ≤ 11
    omega
  | shutdown => exact hy

theorem tick_eq_branches (RAND_MAX : Nat) (p : ℚ) (inp : TickInput) (s : State) :
    train_generator_tick RAND_MAX p inp s =
      train_generator_branches RAND_MAX p inp
        { s with current_trains_count := total_size s } := rfl

theorem branches_total (RAND_MAX : Nat) (p : ℚ) (inp : TickInput) (s : State) :
    total_size (train_generator_branches RAND_MAX p inp s).state ≤ total_size s + 1 ∧
    (total_size s < total_size (train_generator_branches RAND_MAX p inp s).state →
      s.system_overloaded = false ∧ s.current_trains_count ≤ 10) := by
  unfold train_generator_branches
  split_ifs with h1 h2 h3 h4
  · exact ⟨Nat.le_succ _, fun h => absurd h (lt_irrefl _)⟩
  · exact ⟨Nat.le_succ _, fun h => absurd h (lt_irrefl _)⟩
  · exact ⟨Nat.le_succ _, fun h => absurd h (lt_irrefl _)⟩
  · refine ⟨admit_train_total_le RAND_MAX p inp s, fun _ => ⟨h4, ?_⟩⟩
    by_contra hc
    exact h2 ⟨by omega, h4⟩
  · exact ⟨Nat.le_succ _, fun h => absurd h (lt_irrefl _)⟩

theorem dequeue_selected_count (queue_id : Char) (s : State) :
    (dequeue_selected queue_id s).2.current_trains_count = s.current_trains_count := by
  unfold dequeue_selected
  split_ifs <;> rfl

theorem tunnel_controller_step_count (y : Sys) :
    (tunnel_controller_step y).g.current_trains_count = y.g.current_trains_count := by
  obtain ⟨g, pc, qid, node, it, gen⟩ := y
  cases pc
  case select => exact dequeue_selected_count _ g
  case enter => cases node <;> rfl
  all_goals first
    | rfl
    | (simp only [tunnel_controller_step]; split_ifs <;> rfl)

theorem fine_backlog_invariant_step (RAND_MAX : Nat) (p : ℚ) (z : Threads) (e : FineEvent)
    (hz : fine_backlog_invariant z) : fine_backlog_invariant (fine_step RAND_MAX p z e) := by
  obtain ⟨h11, hread⟩ := hz
  cases e with
  | read =>
    simp only [fine_step]
    split_ifs
    · exact ⟨h11, hread⟩
    · exact ⟨h11, fun _ => le_refl _⟩
  | act inp =>
    simp only [fine_step]
    split_ifs with hr
    · exact ⟨h11, hread⟩
    · have hr' : z.generator_has_read = true := by simpa using hr
      obtain ⟨hle, himp⟩ := branches_total RAND_MAX p inp z.sys.g
      have hstale := hread hr'
      refine ⟨?_, fun h => absurd h (by simp)⟩
      show total_size (train_generator_branches RAND_MAX p inp z.sys.g).state ≤ 11
      by_cases hlt : total_size z.sys.g
          < total_size (train_generator_branches RAND_MAX p inp z.sys.g).state
      · have := (himp hlt).2
        omega
      · omega
  | controller =>
    have ht := tunnel_controller_step_total_le z.sys
    have hc := tunnel_controller_step_count z.sys
    refine ⟨?_, fun h => ?_⟩
    · show total_size (tunnel_controller_step z.sys).g ≤ 11
      omega
    · have := hread h
      show total_size (tunnel_controller_step z.sys).g
        ≤ (tunnel_controller_step z.sys).g.current_trains_count
      omega
  | shutdown => exact ⟨h11, hread⟩

theorem fine_run_invariant (RAND_MAX : Nat) (p : ℚ) (events : List FineEvent) (z : Threads)
    (hz : fine_backlog_invariant z) : fine_backlog_invariant (fine_run RAND_MAX p z events) := by
  induction events generalizing z with
  | nil => exact hz
  | cons e events ih => exact ih _ (fine_backlog_invariant_step RAND_MAX p z e hz)

/-- In the two-step view a scheduler dequeue can fall between the read and the
enqueue: the eleventh iteration reads 10, one train is dequeued, and the
iteration then enqueues into queues that hold 9 trains. -/
theorem stale_read_example :
    total_size (fine_run 2147483647 0 Threads.init stale_read_events).sys.g = 10 ∧
    (fine_run 2147483647 0 Threads.init stale_read_events).sys.g.current_trains_count = 10 ∧
    (fine_run 2147483647 0 Threads.init stale_read_events).sys.g.train_counter = 11 := by
  decide!

/-- C11: in every state reached from program start (four empty queues, not
overloaded) by generator iterations, scheduler steps and shutdown requests in
any order, the aggregate number of queued trains is at most 11; this holds both
when an iteration is one step and when scheduler steps may fall between its
read of the aggregate count and its enqueue.  The reason: a generator iteration
adds at most one train, and adds one only when `system_overloaded` is 0 and the
aggregate count it read is at most 10, and a scheduler step never adds one.  The
bound is reached: eleven iterations with no dequeue queue 11 trains. -/
theorem C11_bounded_backlog (RAND_MAX : Nat) (p : ℚ) (events : List Event)
    (fine_events : List FineEvent) :
    total_size (run RAND_MAX p Sys.init events).g ≤ 11 ∧
    total_size (fine_run RAND_MAX p Threads.init fine_events).sys.g ≤ 11 ∧
    (∀ (inp : TickInput) (s : State),
      total_size (train_generator_tick RAND_MAX p inp s).state ≤ total_size s + 1 ∧
      (total_size s < total_size (train_generator_tick RAND_MAX p inp s).state →
        s.system_overloaded = false ∧ total_size s ≤ 10)) ∧
    (∀ (inp : TickInput) (s : State),
      total_size (train_generator_branches RAND_MAX p inp s).state ≤ total_size s + 1 ∧
      (total_size s < total_size (train_generator_branches RAND_MAX p inp s).state →
        s.system_overloaded = false ∧ s.current_trains_count ≤ 10)) ∧
    (∀ y : Sys, total_size (tunnel_controller_step y).g ≤ total_size y.g) ∧
    total_size Sys.init.g = 0 ∧ Sys.init.g.system_overloaded = false ∧
    total_size (run 2147483647 0 Sys.init race_fill).g = 11 := by
  refine ⟨?_, ?_, fun inp s => tick_total RAND_MAX p inp s,
    fun inp s => branches_total RAND_MAX p inp s, tunnel_controller_step_total_le,
    rfl, rfl, by decide!⟩
  · exact run_invariant RAND_MAX p backlog_invariant
      (fun y e hy => backlog_invariant_step RAND_MAX p y e hy) Sys.init
      (by unfold backlog_invariant; decide) events
  · exact (fine_run_invariant RAND_MAX p fine_events Threads.init
      ⟨by decide, fun h => absurd h (by simp [Threads.init])⟩).1

end MetroSimulation
